import Mathlib

/-!
Shallow embedding of the `CircuitBreaker` class (circuit breaker for PreKey
error protection).  Time is explicit: every operation that reads `Date.now()`
in the source takes the current instant `now : Int` as an argument.  All
numeric fields are modelled as `Int`, matching the JavaScript `number`
semantics on the integral values the breaker manipulates (milliseconds and
counts); list lengths are coerced to `Int` at the comparison sites where the
source compares `this.failures.length` with a configured threshold.
-/

/-- The three states of the breaker: `'CLOSED' | 'OPEN' | 'HALF_OPEN'`. -/
inductive CircuitBreakerState
  | CLOSED
  | OPEN
  | HALF_OPEN
deriving DecidableEq, Repr

/-- A JavaScript `Error`, reduced to the only field the breaker reads. -/
structure Err where
  message : String
deriving DecidableEq, Repr

/-- `CircuitBreakerConfig`, after the constructor has filled the default
for `shouldCountError` (the constructor defaults it to `() => true`);
the logger is observability only and is not modelled. -/
structure CircuitBreakerConfig where
  failureThreshold : Int
  failureWindow : Int
  openTimeout : Int
  successThreshold : Int
  shouldCountError : Err → Bool

/-- `FailureRecord`: `{ timestamp: number, error: string }`. -/
structure FailureRecord where
  timestamp : Int
  error : String
deriving DecidableEq, Repr

/-- The mutable fields of a `CircuitBreaker` instance together with its
(immutable) configuration. -/
structure CircuitBreaker where
  state : CircuitBreakerState
  failures : List FailureRecord
  successes : Int
  openedAt : Int
  config : CircuitBreakerConfig

namespace CircuitBreaker

/-- The freshly constructed breaker: field initializers
`state = 'CLOSED'`, `failures = []`, `successes = 0`, `openedAt = 0`. -/
def init (cfg : CircuitBreakerConfig) : CircuitBreaker :=
  { state := .CLOSED
    failures := []
    successes := 0
    openedAt := 0
    config := cfg }

/-- `cleanOldFailures()`: keep only the records with
`timestamp > now - failureWindow`. -/
def cleanOldFailures (cb : CircuitBreaker) (now : Int) : CircuitBreaker :=
  { cb with failures :=
      cb.failures.filter (fun f => now - cb.config.failureWindow < f.timestamp) }

/-- `transitionTo(newState)`: set the state and run the entry actions of
the new state (log calls omitted). -/
def transitionTo (cb : CircuitBreaker) (newState : CircuitBreakerState) :
    (now : Int) → CircuitBreaker
  | now =>
    let cb := { cb with state := newState }
    match newState with
    | .OPEN => { cb with openedAt := now, successes := 0 }
    | .HALF_OPEN => { cb with successes := 0 }
    | .CLOSED => { cb with failures := [], successes := 0, openedAt := 0 }

/-- `canExecute()`: prune, then branch on the state; returns the updated
breaker together with the boolean result. -/
def canExecute (cb : CircuitBreaker) (now : Int) : CircuitBreaker × Bool :=
  let cb := cleanOldFailures cb now
  match cb.state with
  | .CLOSED => (cb, true)
  | .OPEN =>
    if cb.config.openTimeout ≤ now - cb.openedAt then
      (transitionTo cb .HALF_OPEN now, true)
    else
      (cb, false)
  | .HALF_OPEN => (cb, true)

/-- `recordSuccess()`. -/
def recordSuccess (cb : CircuitBreaker) (now : Int) : CircuitBreaker :=
  match cb.state with
  | .HALF_OPEN =>
    let cb := { cb with successes := cb.successes + 1 }
    if cb.config.successThreshold ≤ cb.successes then
      transitionTo cb .CLOSED now
    else
      cb
  | .CLOSED => cleanOldFailures cb now
  | .OPEN => cb

/-- `recordFailure(error)`. -/
def recordFailure (cb : CircuitBreaker) (error : Err) (now : Int) :
    CircuitBreaker :=
  if cb.config.shouldCountError error then
    let cb := { cb with failures :=
        cb.failures ++ [({ timestamp := now, error := error.message } : FailureRecord)] }
    match cb.state with
    | .HALF_OPEN => transitionTo cb .OPEN now
    | .CLOSED =>
      let cb := cleanOldFailures cb now
      if cb.config.failureThreshold ≤ (cb.failures.length : Int) then
        transitionTo cb .OPEN now
      else
        cb
    | .OPEN => cb
  else
    cb

/-- `getState()`. -/
def getState (cb : CircuitBreaker) : CircuitBreakerState :=
  cb.state

/-- The record returned by `getStats()`. -/
structure Stats where
  state : CircuitBreakerState
  failures : Nat
  successes : Int
  openedAt : Int
  timeUntilHalfOpen : Int
deriving DecidableEq, Repr

/-- `getStats()`: a pure read of the breaker (it returns a fresh record and
does not touch the breaker's fields). -/
def getStats (cb : CircuitBreaker) (now : Int) : Stats :=
  { state := cb.state
    failures := cb.failures.length
    successes := cb.successes
    openedAt := cb.openedAt
    timeUntilHalfOpen :=
      match cb.state with
      | .OPEN => max 0 (cb.config.openTimeout - (now - cb.openedAt))
      | _ => 0 }

/-- `reset()`. -/
def reset (cb : CircuitBreaker) (now : Int) : CircuitBreaker :=
  transitionTo cb .CLOSED now

/-- One external call to the breaker, tagged with the instant at which the
clock is read. -/
inductive Event
  | canExec (now : Int)
  | success (now : Int)
  | failure (error : Err) (now : Int)
  | reset (now : Int)

/-- The instant carried by an event. -/
def Event.time : Event → Int
  | .canExec now => now
  | .success now => now
  | .failure _ now => now
  | .reset now => now

/-- Whether the event is the external `reset()` call. -/
def Event.isReset : Event → Bool
  | .reset _ => true
  | _ => false

/-- Apply one event to the breaker. -/
def step (cb : CircuitBreaker) : Event → CircuitBreaker
  | .canExec now => (canExecute cb now).1
  | .success now => recordSuccess cb now
  | .failure e now => recordFailure cb e now
  | .reset now => CircuitBreaker.reset cb now

/-- Apply a sequence of events to the breaker. -/
def run (cb : CircuitBreaker) (evs : List Event) : CircuitBreaker :=
  evs.foldl step cb

end CircuitBreaker

/-- The numeric defaults of `createPreKeyCircuitBreaker` (threshold 5,
window 60000 ms, open timeout 30000 ms, success threshold 2) with the
constructor's default accept-all error filter. -/
def cfgSpec : CircuitBreakerConfig :=
  { failureThreshold := 5
    failureWindow := 60000
    openTimeout := 30000
    successThreshold := 2
    shouldCountError := fun _ => true }

/-- A configuration that opens after a single failure, used to drive the
breaker into `OPEN` in concrete scenarios. -/
def cfg1 : CircuitBreakerConfig :=
  { failureThreshold := 1
    failureWindow := 60000
    openTimeout := 30000
    successThreshold := 2
    shouldCountError := fun _ => true }

/-- A configuration whose error filter counts only errors whose message is
the literal string `prekey`. -/
def cfgFilter : CircuitBreakerConfig :=
  { failureThreshold := 5
    failureWindow := 60000
    openTimeout := 30000
    successThreshold := 2
    shouldCountError := fun e => e.message == "prekey" }

/-- A sample error. -/
def errE : Err := { message := "e" }

/-- A breaker sitting in `HALF_OPEN` with a nonzero success count. -/
def hoCb : CircuitBreaker :=
  { state := .HALF_OPEN
    failures := []
    successes := 7
    openedAt := 0
    config := cfgSpec }

/-- A breaker sitting in `HALF_OPEN` with zero successes and a pending
failure record, under the default configuration (`successThreshold = 2`). -/
def hoCb0 : CircuitBreaker :=
  { state := .HALF_OPEN
    failures := [{ timestamp := 0, error := "e" }]
    successes := 0
    openedAt := 0
    config := cfgSpec }

/-- A breaker that opened at `t = 0` with a 30000 ms open timeout, reached
by one qualifying failure under a threshold-1 configuration. -/
def cbOpen : CircuitBreaker := CircuitBreaker.recordFailure (.init cfg1) errE 0

/-- A breaker that opened at `t = 5`, reached by one qualifying failure
under a threshold-1 configuration. -/
def cbOpen5 : CircuitBreaker := CircuitBreaker.recordFailure (.init cfg1) errE 5

/-- A `CLOSED` breaker holding one stale record (`t = 0`) and one fresh
record (`t = 50`) relative to the instant 60010 used in the witness. -/
def cbMix : CircuitBreaker :=
  { state := .CLOSED
    failures := [{ timestamp := 0, error := "a" }, { timestamp := 50, error := "b" }]
    successes := 0
    openedAt := 0
    config := cfgSpec }

/-- The scenario of C3: 4 failures at `t = 0` and one at `t = 61000` under
threshold 5 / window 60000. -/
def evs61 : List CircuitBreaker.Event :=
  [.failure errE 0, .failure errE 0, .failure errE 0, .failure errE 0,
   .failure errE 61000]

namespace CircuitBreaker

/-- The successes counter is zero outside `HALF_OPEN`. -/
def SuccInv (cb : CircuitBreaker) : Prop :=
  cb.state ≠ .HALF_OPEN → cb.successes = 0

/-- Record a sequence of qualifying failures, one `recordFailure` call per
listed instant. -/
def failAll (cb : CircuitBreaker) (e : Err) (ts : List Int) : CircuitBreaker :=
  ts.foldl (fun c t => recordFailure c e t) cb

theorem config_cleanOldFailures (cb : CircuitBreaker) (now : Int) :
    (cleanOldFailures cb now).config = cb.config := rfl

theorem config_transitionTo (cb : CircuitBreaker) (s : CircuitBreakerState)
    (now : Int) : (transitionTo cb s now).config = cb.config := by
  cases s <;> rfl

theorem config_recordFailure (cb : CircuitBreaker) (e : Err) (now : Int) :
    (recordFailure cb e now).config = cb.config := by
  rcases cb with ⟨st, fs, sc, oa, cfg⟩
  unfold recordFailure transitionTo cleanOldFailures
  cases st <;> dsimp only <;> split <;> (try split) <;> rfl

theorem canExecute_closed (cb : CircuitBreaker) (now : Int)
    (hs : cb.state = .CLOSED) :
    (canExecute cb now).2 = true ∧ (canExecute cb now).1.state = .CLOSED := by
  rcases cb with ⟨st, fs, sc, oa, cfg⟩
  dsimp only at hs
  subst hs
  exact ⟨rfl, rfl⟩

theorem canExecute_open_cases (cb : CircuitBreaker) (now : Int)
    (hs : cb.state = .OPEN) :
    (now - cb.openedAt < cb.config.openTimeout →
      (canExecute cb now).2 = false ∧
      (canExecute cb now).1.state = .OPEN ∧
      (canExecute cb now).1.openedAt = cb.openedAt) ∧
    (cb.config.openTimeout ≤ now - cb.openedAt →
      (canExecute cb now).2 = true ∧
      (canExecute cb now).1.state = .HALF_OPEN) := by
  rcases cb with ⟨st, fs, sc, oa, cfg⟩
  dsimp only at hs ⊢
  subst hs
  unfold canExecute cleanOldFailures transitionTo
  constructor
  · intro h
    simp [not_le.mpr h]
  · intro h
    simp [h]

end CircuitBreaker

open CircuitBreaker

/-- Claim C7: if `shouldCountError error` is false, `recordFailure(error)`
leaves the whole breaker unchanged: no record appended, state, successes and
`openedAt` keep their values. -/
theorem recordFailure_filtered_noop (cb : CircuitBreaker) (e : Err)
    (now : Int) (h : cb.config.shouldCountError e = false) :
    recordFailure cb e now = cb := by
  unfold recordFailure
  simp [h]

/-- Witness for C7: the filter of `cfgFilter` rejects the message `"e"`,
and `recordFailure` on a fresh breaker with that error is the identity. -/
theorem recordFailure_filtered_noop_witness :
    (init cfgFilter).config.shouldCountError errE = false ∧
    recordFailure (init cfgFilter) errE 10 = init cfgFilter :=
  ⟨rfl, recordFailure_filtered_noop (init cfgFilter) errE 10 rfl⟩

/-- Claim C8: `reset()` from any breaker state yields state `CLOSED`, an
empty failure sequence, zero successes and `openedAt` cleared to `0`, and
`reset` is idempotent: a second `reset` (at any instant) returns the very
same breaker state. -/
theorem reset_closes_and_idempotent (cb : CircuitBreaker) (t1 t2 : Int) :
    (reset cb t1).state = .CLOSED ∧
    (reset cb t1).failures = [] ∧
    (reset cb t1).successes = 0 ∧
    (reset cb t1).openedAt = 0 ∧
    reset (reset cb t1) t2 = reset cb t1 :=
  ⟨rfl, rfl, rfl, rfl, rfl⟩

/-- Claim C5: from `HALF_OPEN`, a single qualifying `recordFailure` appends
a failure record and transitions to `OPEN` with `openedAt` set to the
current time, whatever the prior success count. -/
theorem recordFailure_halfOpen_reopens (cb : CircuitBreaker) (e : Err)
    (now : Int) (hs : cb.state = .HALF_OPEN)
    (hc : cb.config.shouldCountError e = true) :
    (recordFailure cb e now).state = .OPEN ∧
    (recordFailure cb e now).openedAt = now ∧
    (recordFailure cb e now).failures =
      cb.failures ++ [{ timestamp := now, error := e.message }] := by
  rcases cb with ⟨st, fs, sc, oa, cfg⟩
  dsimp only at hs hc ⊢
  subst hs
  unfold recordFailure transitionTo
  simp [hc]

/-- Witness for C5 at a `HALF_OPEN` breaker with 7 prior successes. -/
theorem recordFailure_halfOpen_reopens_witness :
    hoCb.state = .HALF_OPEN ∧
    hoCb.config.shouldCountError errE = true ∧
    (recordFailure hoCb errE 42).state = .OPEN ∧
    (recordFailure hoCb errE 42).openedAt = 42 ∧
    (recordFailure hoCb errE 42).failures = [{ timestamp := 42, error := "e" }] :=
  ⟨rfl, rfl, (recordFailure_halfOpen_reopens hoCb errE 42 rfl rfl).1,
   (recordFailure_halfOpen_reopens hoCb errE 42 rfl rfl).2.1,
   (recordFailure_halfOpen_reopens hoCb errE 42 rfl rfl).2.2⟩

/-- Claim C6: from `HALF_OPEN`, `recordSuccess` increments `successes` and
keeps `HALF_OPEN` while the incremented count is below `successThreshold`;
the call that reaches the threshold transitions to `CLOSED` and clears the
failure sequence. -/
theorem recordSuccess_halfOpen_spec (cb : CircuitBreaker) (now : Int)
    (hs : cb.state = .HALF_OPEN) :
    (cb.successes + 1 < cb.config.successThreshold →
      recordSuccess cb now = { cb with successes := cb.successes + 1 }) ∧
    (cb.config.successThreshold ≤ cb.successes + 1 →
      (recordSuccess cb now).state = .CLOSED ∧
      (recordSuccess cb now).failures = [] ∧
      (recordSuccess cb now).successes = 0) := by
  rcases cb with ⟨st, fs, sc, oa, cfg⟩
  dsimp only at hs ⊢
  subst hs
  unfold recordSuccess transitionTo
  constructor
  · intro h
    simp [not_le.mpr h]
  · intro h
    simp [h]

/-- Witness for C6 with `successThreshold = 2`: the first `recordSuccess`
keeps `HALF_OPEN`, the second yields `CLOSED` with no failure records. -/
theorem recordSuccess_halfOpen_spec_witness :
    (recordSuccess hoCb0 5).state = .HALF_OPEN ∧
    (recordSuccess hoCb0 5).successes = 1 ∧
    (recordSuccess (recordSuccess hoCb0 5) 6).state = .CLOSED ∧
    (recordSuccess (recordSuccess hoCb0 5) 6).failures = [] := by
  have h1 := (recordSuccess_halfOpen_spec hoCb0 5 rfl).1 (by decide)
  rw [h1]
  have h2 := (recordSuccess_halfOpen_spec
      { hoCb0 with successes := 1 } 6 rfl).2 (by decide)
  exact ⟨rfl, rfl, h2.1, h2.2.1⟩

/-- Claim C4: while `OPEN`, `canExecute` returns false and stays `OPEN`
when the elapsed time since `openedAt` is strictly below `openTimeout`, and
returns true transitioning to `HALF_OPEN` once the elapsed time reaches
`openTimeout`. -/
theorem canExecute_open_spec (cb : CircuitBreaker) (now : Int)
    (hs : cb.state = .OPEN) :
    (now - cb.openedAt < cb.config.openTimeout →
      (canExecute cb now).2 = false ∧
      (canExecute cb now).1.state = .OPEN ∧
      (canExecute cb now).1.openedAt = cb.openedAt) ∧
    (cb.config.openTimeout ≤ now - cb.openedAt →
      (canExecute cb now).2 = true ∧
      (canExecute cb now).1.state = .HALF_OPEN) :=
  canExecute_open_cases cb now hs

/-- Witness for C4: opened at `t = 0` with `openTimeout = 30000`,
`canExecute` at `t = 29999` is false keeping `OPEN` and at `t = 30000` is
true moving to `HALF_OPEN`. -/
theorem canExecute_open_spec_witness :
    cbOpen.state = .OPEN ∧
    (canExecute cbOpen 29999).2 = false ∧
    (canExecute cbOpen 29999).1.state = .OPEN ∧
    (canExecute cbOpen 30000).2 = true ∧
    (canExecute cbOpen 30000).1.state = .HALF_OPEN := by
  have h1 := (canExecute_open_spec cbOpen 29999 (by decide)).1 (by decide)
  have h2 := (canExecute_open_spec cbOpen 30000 (by decide)).2 (by decide)
  exact ⟨by decide, h1.1, h1.2.1, h2.1, h2.2⟩

/-- Claim C9: `getStats` is a pure read (it returns a record and leaves the
breaker untouched by construction), its `timeUntilHalfOpen` field equals
`max 0 (openTimeout - (now - openedAt))` when the state is `OPEN` and `0`
otherwise, and while `OPEN` it is non-increasing in the clock, strictly
decreasing as long as it is positive. -/
theorem getStats_timeUntilHalfOpen_spec (cb : CircuitBreaker) :
    (∀ now, cb.state = .OPEN →
      (getStats cb now).timeUntilHalfOpen =
        max 0 (cb.config.openTimeout - (now - cb.openedAt))) ∧
    (∀ now, cb.state ≠ .OPEN → (getStats cb now).timeUntilHalfOpen = 0) ∧
    (∀ t1 t2, cb.state = .OPEN → t1 ≤ t2 →
      (getStats cb t2).timeUntilHalfOpen ≤ (getStats cb t1).timeUntilHalfOpen) ∧
    (∀ t1 t2, cb.state = .OPEN → t1 < t2 →
      0 < (getStats cb t1).timeUntilHalfOpen →
      (getStats cb t2).timeUntilHalfOpen < (getStats cb t1).timeUntilHalfOpen) := by
  rcases cb with ⟨st, fs, sc, oa, cfg⟩
  refine ⟨?_, ?_, ?_, ?_⟩
  · intro now hs
    dsimp only at hs
    subst hs
    simp [getStats]
  · intro now hs
    cases st
    · rfl
    · exact absurd rfl hs
    · rfl
  · intro t1 t2 hs hle
    dsimp only at hs
    subst hs
    simp only [getStats]
    omega
  · intro t1 t2 hs hlt hpos
    dsimp only at hs
    subst hs
    simp only [getStats] at hpos ⊢
    omega

/-- Witness for C9 at the breaker that opened at `t = 0` with
`openTimeout = 30000` (so the remaining wait at `t = 10000` is 20000) and
at a fresh `CLOSED` breaker. -/
theorem getStats_timeUntilHalfOpen_spec_witness :
    (getStats cbOpen 10000).timeUntilHalfOpen =
      max 0 (cbOpen.config.openTimeout - (10000 - cbOpen.openedAt)) ∧
    (getStats (init cfgSpec) 10000).timeUntilHalfOpen = 0 ∧
    (getStats cbOpen 20000).timeUntilHalfOpen ≤
      (getStats cbOpen 10000).timeUntilHalfOpen ∧
    (getStats cbOpen 20000).timeUntilHalfOpen <
      (getStats cbOpen 10000).timeUntilHalfOpen := by
  have h := getStats_timeUntilHalfOpen_spec cbOpen
  have h0 := getStats_timeUntilHalfOpen_spec (init cfgSpec)
  exact ⟨h.1 10000 (by decide), h0.2.1 10000 (by decide),
    h.2.2.1 10000 20000 (by decide) (by decide),
    h.2.2.2 10000 20000 (by decide) (by decide) (by decide)⟩

namespace CircuitBreaker

theorem cleanOldFailures_mem (cb : CircuitBreaker) (now : Int)
    (f : FailureRecord) (hf : f ∈ (cleanOldFailures cb now).failures) :
    now - cb.config.failureWindow < f.timestamp := by
  unfold cleanOldFailures at hf
  simp only [List.mem_filter, decide_eq_true_eq] at hf
  exact hf.2

theorem canExecute_failures (cb : CircuitBreaker) (now : Int) :
    (canExecute cb now).1.failures = (cleanOldFailures cb now).failures := by
  rcases cb with ⟨st, fs, sc, oa, cfg⟩
  unfold canExecute cleanOldFailures transitionTo
  cases st
  all_goals dsimp only
  all_goals try split
  all_goals rfl

theorem recordSuccess_closed (cb : CircuitBreaker) (now : Int)
    (hs : cb.state = .CLOSED) :
    recordSuccess cb now = cleanOldFailures cb now := by
  rcases cb with ⟨st, fs, sc, oa, cfg⟩
  dsimp only at hs
  subst hs
  rfl

theorem recordFailure_closed_failures (cb : CircuitBreaker) (e : Err)
    (now : Int) (hs : cb.state = .CLOSED)
    (hc : cb.config.shouldCountError e = true) :
    (recordFailure cb e now).failures =
      (cb.failures ++ [({ timestamp := now, error := e.message } : FailureRecord)]).filter
        (fun f => now - cb.config.failureWindow < f.timestamp) := by
  rcases cb with ⟨st, fs, sc, oa, cfg⟩
  dsimp only at hs hc ⊢
  subst hs
  unfold recordFailure cleanOldFailures transitionTo
  simp only [hc, if_true]
  dsimp only
  split <;> rfl

end CircuitBreaker

/-- Claim C3: every record retained by a pruning pass (the pass itself, and
as run by `canExecute`, by `recordSuccess` in `CLOSED`, and by
`recordFailure` in `CLOSED`) satisfies `timestamp > now - failureWindow`;
and concretely, with threshold 5 and window 60000 ms, 4 qualifying failures
at `t = 0` followed by one at `t = 61000` leave the breaker `CLOSED` with a
single counted failure. -/
theorem window_expiry (cb : CircuitBreaker) (e : Err) (now : Int) :
    (∀ f ∈ (cleanOldFailures cb now).failures,
      now - cb.config.failureWindow < f.timestamp) ∧
    (∀ f ∈ (canExecute cb now).1.failures,
      now - cb.config.failureWindow < f.timestamp) ∧
    (cb.state = .CLOSED → ∀ f ∈ (recordSuccess cb now).failures,
      now - cb.config.failureWindow < f.timestamp) ∧
    (cb.state = .CLOSED → cb.config.shouldCountError e = true →
      ∀ f ∈ (recordFailure cb e now).failures,
      now - cb.config.failureWindow < f.timestamp) ∧
    (run (init cfgSpec) evs61).state = .CLOSED ∧
    (run (init cfgSpec) evs61).failures.length = 1 := by
  refine ⟨fun f hf => cleanOldFailures_mem cb now f hf, ?_, ?_, ?_,
    by decide, by decide⟩
  · intro f hf
    rw [canExecute_failures] at hf
    exact cleanOldFailures_mem cb now f hf
  · intro hs f hf
    rw [recordSuccess_closed cb now hs] at hf
    exact cleanOldFailures_mem cb now f hf
  · intro hs hc f hf
    rw [recordFailure_closed_failures cb e now hs hc] at hf
    simp only [List.mem_filter, decide_eq_true_eq] at hf
    exact hf.2

/-- Witness for C3: at `now = 60010` the retained record at `t = 50` and
the freshly appended record both beat the cutoff `now - failureWindow`. -/
theorem window_expiry_witness :
    ((60010 : Int) - cbMix.config.failureWindow < 50) ∧
    ((60010 : Int) - cbMix.config.failureWindow < 60010) :=
  ⟨(window_expiry cbMix errE 60010).1 { timestamp := 50, error := "b" }
      (by decide),
   (window_expiry cbMix errE 60010).2.2.2.1 rfl rfl
      { timestamp := 60010, error := "e" } (by decide)⟩

/-- Counterexample to C1: `reset` — an operation whose transition enters
`CLOSED`, not `OPEN` — changes `openedAt` (from 5 to 0), so `openedAt` is
not left untouched by every operation other than a transition into `OPEN`. -/
theorem openedAt_reset_counterexample :
    cbOpen5.state = .OPEN ∧
    cbOpen5.openedAt = 5 ∧
    (reset cbOpen5 6).state = .CLOSED ∧
    (reset cbOpen5 6).openedAt ≠ cbOpen5.openedAt := by
  decide

/-- Claim C1 (amended): `openedAt` is set to the current time exactly on a
transition into `OPEN` (the pre-state is not `OPEN` and the post-state is),
it is cleared to 0 exactly when the `CLOSED` entry actions run (a `reset`
call, or a step out of `HALF_OPEN` that lands in `CLOSED`), and every other
operation and state transition leaves it untouched — in particular a
qualifying failure recorded while already `OPEN` preserves it. -/
theorem openedAt_mutation_sites (cb : CircuitBreaker) (ev : Event) :
    ((cb.state ≠ .OPEN ∧ (step cb ev).state = .OPEN) →
      (step cb ev).openedAt = ev.time) ∧
    (((step cb ev).state = .CLOSED ∧
        (cb.state = .HALF_OPEN ∨ ev.isReset = true)) →
      (step cb ev).openedAt = 0) ∧
    ((¬(cb.state ≠ .OPEN ∧ (step cb ev).state = .OPEN) ∧
      ¬((step cb ev).state = .CLOSED ∧
        (cb.state = .HALF_OPEN ∨ ev.isReset = true))) →
      (step cb ev).openedAt = cb.openedAt) := by
  rcases cb with ⟨st, fs, sc, oa, cfg⟩
  cases ev <;> cases st <;>
    simp only [step, canExecute, recordSuccess, recordFailure,
      CircuitBreaker.reset, transitionTo, cleanOldFailures, Event.time,
      Event.isReset]
  all_goals try dsimp only
  all_goals repeat' split
  all_goals simp

/-- Witness for C1 (amended), exercising all three cases: a fresh
threshold-1 breaker records a failure at `t = 5` and enters `OPEN`, setting
`openedAt` to 5; `reset` at `t = 6` on the opened breaker enters `CLOSED`
and clears it to 0; a further qualifying failure at `t = 7` on the
already-open breaker leaves `openedAt` untouched. -/
theorem openedAt_mutation_sites_witness :
    (step (init cfg1) (.failure errE 5)).openedAt = 5 ∧
    (step cbOpen5 (.reset 6)).openedAt = 0 ∧
    (step cbOpen5 (.failure errE 7)).openedAt = cbOpen5.openedAt :=
  ⟨(openedAt_mutation_sites (init cfg1) (.failure errE 5)).1 (by decide),
   (openedAt_mutation_sites cbOpen5 (.reset 6)).2.1 (by decide),
   (openedAt_mutation_sites cbOpen5 (.failure errE 7)).2.2 (by decide)⟩

namespace CircuitBreaker

theorem succInv_step (cb : CircuitBreaker) (ev : Event) (h : SuccInv cb) :
    SuccInv (step cb ev) := by
  rcases cb with ⟨st, fs, sc, oa, cfg⟩
  unfold SuccInv at h ⊢
  cases ev <;> cases st <;>
    simp only [step, canExecute, recordSuccess, recordFailure,
      CircuitBreaker.reset, transitionTo, cleanOldFailures] at h ⊢
  all_goals try dsimp only at h ⊢
  all_goals repeat' split
  all_goals intro hne
  all_goals first
    | rfl
    | trivial
    | exact h hne

theorem succInv_run (cb : CircuitBreaker) (evs : List Event) (h : SuccInv cb) :
    SuccInv (run cb evs) := by
  induction evs generalizing cb with
  | nil => exact h
  | cons ev evs ih => exact ih (step cb ev) (succInv_step cb ev h)

end CircuitBreaker

/-- Claim C10: in every breaker state reachable from construction by a
sequence of `canExecute`, `recordSuccess`, `recordFailure` and `reset`
calls, the successes counter is 0 whenever the state is not `HALF_OPEN`. -/
theorem successes_zero_outside_halfOpen (cfg : CircuitBreakerConfig)
    (evs : List CircuitBreaker.Event)
    (h : (run (init cfg) evs).state ≠ .HALF_OPEN) :
    (run (init cfg) evs).successes = 0 :=
  succInv_run (init cfg) evs (fun _ => rfl) h

/-- Witness for C10 after one recorded failure on a fresh default breaker. -/
theorem successes_zero_outside_halfOpen_witness :
    (run (init cfgSpec) [.failure errE 0]).state ≠ .HALF_OPEN ∧
    (run (init cfgSpec) [.failure errE 0]).successes = 0 :=
  ⟨by decide, successes_zero_outside_halfOpen cfgSpec [.failure errE 0]
    (by decide)⟩

namespace CircuitBreaker

theorem recordFailure_closed_keepAll (cb : CircuitBreaker) (e : Err)
    (t lo hi : Int)
    (hwin : hi - lo < cb.config.failureWindow)
    (ht : lo ≤ t ∧ t ≤ hi)
    (hfs : ∀ f ∈ cb.failures, lo ≤ f.timestamp ∧ f.timestamp ≤ hi) :
    (cb.failures ++ [({ timestamp := t, error := e.message } : FailureRecord)]).filter
        (fun f => t - cb.config.failureWindow < f.timestamp) =
      cb.failures ++ [({ timestamp := t, error := e.message } : FailureRecord)] := by
  apply List.filter_eq_self.mpr
  intro f hf
  rcases List.mem_append.mp hf with hmem | hmem
  · have hb := hfs f hmem
    simp only [decide_eq_true_eq]
    omega
  · simp only [List.mem_singleton] at hmem
    subst hmem
    simp only [decide_eq_true_eq]
    omega

theorem recordFailure_closed_stay (cb : CircuitBreaker) (e : Err)
    (t lo hi : Int) (hs : cb.state = .CLOSED)
    (hc : cb.config.shouldCountError e = true)
    (hwin : hi - lo < cb.config.failureWindow)
    (ht : lo ≤ t ∧ t ≤ hi)
    (hfs : ∀ f ∈ cb.failures, lo ≤ f.timestamp ∧ f.timestamp ≤ hi)
    (hth : (cb.failures.length : Int) + 1 < cb.config.failureThreshold) :
    recordFailure cb e t =
      { cb with failures :=
          cb.failures ++ [({ timestamp := t, error := e.message } : FailureRecord)] } := by
  have hkeep := recordFailure_closed_keepAll cb e t lo hi hwin ht hfs
  rcases cb with ⟨st, fs, sc, oa, cfg⟩
  dsimp only at hs hc hth hkeep ⊢
  subst hs
  unfold recordFailure cleanOldFailures
  simp only [hc, if_true]
  dsimp only
  rw [hkeep, if_neg]
  simp only [List.length_append, List.length_singleton]
  push_cast
  omega

theorem recordFailure_closed_trip (cb : CircuitBreaker) (e : Err)
    (t lo hi : Int) (hs : cb.state = .CLOSED)
    (hc : cb.config.shouldCountError e = true)
    (hwin : hi - lo < cb.config.failureWindow)
    (ht : lo ≤ t ∧ t ≤ hi)
    (hfs : ∀ f ∈ cb.failures, lo ≤ f.timestamp ∧ f.timestamp ≤ hi)
    (hth : cb.config.failureThreshold ≤ (cb.failures.length : Int) + 1) :
    (recordFailure cb e t).state = .OPEN ∧
    (recordFailure cb e t).openedAt = t := by
  have hkeep := recordFailure_closed_keepAll cb e t lo hi hwin ht hfs
  rcases cb with ⟨st, fs, sc, oa, cfg⟩
  dsimp only at hs hc hth hkeep ⊢
  subst hs
  unfold recordFailure cleanOldFailures transitionTo
  simp only [hc, if_true]
  dsimp only
  rw [hkeep, if_pos]
  · exact ⟨rfl, rfl⟩
  · simp only [List.length_append, List.length_singleton]
    push_cast
    omega

theorem failAll_closed (e : Err) (lo hi : Int) (ts : List Int)
    (cb : CircuitBreaker) (hs : cb.state = .CLOSED)
    (hc : cb.config.shouldCountError e = true)
    (hwin : hi - lo < cb.config.failureWindow)
    (hts : ∀ t ∈ ts, lo ≤ t ∧ t ≤ hi)
    (hfs : ∀ f ∈ cb.failures, lo ≤ f.timestamp ∧ f.timestamp ≤ hi)
    (hlen : (cb.failures.length : Int) + ts.length < cb.config.failureThreshold) :
    (failAll cb e ts).state = .CLOSED ∧
    (failAll cb e ts).failures.length = cb.failures.length + ts.length ∧
    (∀ f ∈ (failAll cb e ts).failures, lo ≤ f.timestamp ∧ f.timestamp ≤ hi) ∧
    (failAll cb e ts).config = cb.config := by
  induction ts generalizing cb with
  | nil =>
    exact ⟨hs, by simp [failAll], hfs, rfl⟩
  | cons t ts ih =>
    have ht := hts t (List.mem_cons_self t ts)
    have hstep := recordFailure_closed_stay cb e t lo hi hs hc hwin ht hfs
      (by simp only [List.length_cons] at hlen; push_cast at hlen ⊢; omega)
    have hfold : failAll cb e (t :: ts) = failAll (recordFailure cb e t) e ts := rfl
    rw [hfold, hstep]
    have hfs' : ∀ f ∈ cb.failures ++
        [({ timestamp := t, error := e.message } : FailureRecord)],
        lo ≤ f.timestamp ∧ f.timestamp ≤ hi := by
      intro f hf
      rcases List.mem_append.mp hf with hmem | hmem
      · exact hfs f hmem
      · simp only [List.mem_singleton] at hmem
        subst hmem
        exact ht
    obtain ⟨h1, h2, h3, h4⟩ := ih
      { cb with failures :=
          cb.failures ++ [({ timestamp := t, error := e.message } : FailureRecord)] }
      hs hc hwin (fun t' ht' => hts t' (List.mem_cons_of_mem t ht')) hfs'
      (by show ((cb.failures ++
              [({ timestamp := t, error := e.message } : FailureRecord)]).length : Int) +
            ((ts.length : Nat) : Int) < cb.config.failureThreshold
          simp only [List.length_cons] at hlen
          simp only [List.length_append, List.length_singleton]
          push_cast at hlen ⊢
          omega)
    refine ⟨h1, ?_, h3, h4⟩
    rw [h2]
    show (cb.failures ++
        [({ timestamp := t, error := e.message } : FailureRecord)]).length +
      ts.length = cb.failures.length + (t :: ts).length
    simp only [List.length_append, List.length_singleton, List.length_cons,
      List.length_nil]
    omega

end CircuitBreaker

/-- Claim C2: starting from a fresh breaker, `failureThreshold - 1`
qualifying failures whose instants all lie inside one window keep the state
`CLOSED` with `canExecute` true; the `failureThreshold`-th qualifying
failure inside the window opens the circuit at its instant, after which
`canExecute` is false (state `OPEN`) while the elapsed time is below
`openTimeout` and true (state `HALF_OPEN`) once `openTimeout` has elapsed. -/
theorem threshold_property (cfg : CircuitBreakerConfig) (e : Err)
    (ts : List Int) (lo hi tN tBefore tAfter : Int)
    (hc : cfg.shouldCountError e = true)
    (hlen : (ts.length : Int) = cfg.failureThreshold - 1)
    (hts : ∀ t ∈ ts, lo ≤ t ∧ t ≤ hi)
    (hN : lo ≤ tN ∧ tN ≤ hi)
    (hwin : hi - lo < cfg.failureWindow)
    (hB : tBefore - tN < cfg.openTimeout)
    (hA : cfg.openTimeout ≤ tAfter - tN) :
    (failAll (init cfg) e ts).state = .CLOSED ∧
    (canExecute (failAll (init cfg) e ts) tN).2 = true ∧
    (canExecute (failAll (init cfg) e ts) tN).1.state = .CLOSED ∧
    (recordFailure (failAll (init cfg) e ts) e tN).state = .OPEN ∧
    (recordFailure (failAll (init cfg) e ts) e tN).openedAt = tN ∧
    (canExecute (recordFailure (failAll (init cfg) e ts) e tN) tBefore).2 = false ∧
    (canExecute (recordFailure (failAll (init cfg) e ts) e tN) tBefore).1.state = .OPEN ∧
    (canExecute (recordFailure (failAll (init cfg) e ts) e tN) tAfter).2 = true ∧
    (canExecute (recordFailure (failAll (init cfg) e ts) e tN) tAfter).1.state = .HALF_OPEN := by
  obtain ⟨h1, h2, h3, h4⟩ := failAll_closed e lo hi ts (init cfg) rfl hc hwin hts
    (by intro f hf; simp [init] at hf)
    (by show ((0 : Nat) : Int) + ((ts.length : Nat) : Int) < cfg.failureThreshold
        omega)
  have hexec := canExecute_closed (failAll (init cfg) e ts) tN h1
  have hcfg : (failAll (init cfg) e ts).config = cfg := h4
  have htrip := recordFailure_closed_trip (failAll (init cfg) e ts) e tN lo hi h1
    (by rw [hcfg]; exact hc) (by rw [hcfg]; exact hwin) hN h3
    (by rw [hcfg, h2]
        show cfg.failureThreshold ≤ (((0 : Nat) + ts.length : Nat) : Int) + 1
        push_cast
        omega)
  have hocfg : (recordFailure (failAll (init cfg) e ts) e tN).config = cfg := by
    rw [config_recordFailure, hcfg]
  have hB' : tBefore - (recordFailure (failAll (init cfg) e ts) e tN).openedAt <
      (recordFailure (failAll (init cfg) e ts) e tN).config.openTimeout := by
    rw [htrip.2, hocfg]
    exact hB
  have hA' : (recordFailure (failAll (init cfg) e ts) e tN).config.openTimeout ≤
      tAfter - (recordFailure (failAll (init cfg) e ts) e tN).openedAt := by
    rw [htrip.2, hocfg]
    exact hA
  have hopenB := (canExecute_open_cases _ tBefore htrip.1).1 hB'
  have hopenA := (canExecute_open_cases _ tAfter htrip.1).2 hA'
  exact ⟨h1, hexec.1, hexec.2, htrip.1, htrip.2, hopenB.1, hopenB.2.1,
    hopenA.1, hopenA.2⟩

/-- Witness for C2 under the default configuration (threshold 5, window
60000 ms, open timeout 30000 ms): 4 failures at instants 0, 10, 20, 30 keep
the breaker `CLOSED` and executable at `t = 1000`; the 5th failure at
`t = 1000` opens it, `canExecute` is false at `t = 30999` and true (going
`HALF_OPEN`) at `t = 31000`. -/
theorem threshold_property_witness :
    (failAll (init cfgSpec) errE [0, 10, 20, 30]).state = .CLOSED ∧
    (canExecute (failAll (init cfgSpec) errE [0, 10, 20, 30]) 1000).2 = true ∧
    (recordFailure (failAll (init cfgSpec) errE [0, 10, 20, 30]) errE 1000).state = .OPEN ∧
    (recordFailure (failAll (init cfgSpec) errE [0, 10, 20, 30]) errE 1000).openedAt = 1000 ∧
    (canExecute (recordFailure (failAll (init cfgSpec) errE [0, 10, 20, 30]) errE 1000) 30999).2 = false ∧
    (canExecute (recordFailure (failAll (init cfgSpec) errE [0, 10, 20, 30]) errE 1000) 31000).2 = true := by
  have h := threshold_property cfgSpec errE [0, 10, 20, 30] 0 1000 1000 30999 31000
    (by decide) (by decide) (by decide) (by decide) (by decide) (by decide)
    (by decide)
  exact ⟨h.1, h.2.1, h.2.2.2.1, h.2.2.2.2.1, h.2.2.2.2.2.1,
    h.2.2.2.2.2.2.2.1⟩
